import Mathlib

/-!
# Verification of the license-dashboard session & request-cache subsystem

Shallow embedding of the client's token codec (`src/utils/jwtUtils.ts`),
session store (`src/features/auth/slice/authSlice.ts`), HTTP transport
adapter (`src/api/baseApi.ts`), session monitor
(`src/hooks/useSessionExpiry.ts`) and the request cache's tag
declarations (`src/api/paymentApi.ts`, `src/api/statsApi.ts`), together
with proofs and refutations of the specification's claims about them.

Modelling conventions:
* JavaScript wall-clock instants (`Date.now()`, milliseconds since the
  epoch) and JSON numbers are modelled as exact rationals; `Date.now()`
  values are nonnegative.  Where numeric coercion can produce a
  non-finite value, numbers extend to `NaN` and the signed infinities
  (`JsNumExt`); double rounding and overflow are not modelled.
* JavaScript `null`/`undefined` results are modelled as `Option.none`.
* Fallible operations (storage writes, reducers that can throw) return
  explicit results instead of raising exceptions.
-/

namespace LicenseFrontend

/-! ## Exact number representation

JavaScript numbers (JSON literals, `Date.now()` instants, durations)
are modelled as exact rationals.  Mathlib's `ℚ` does not reduce inside
the kernel (its arithmetic is defined through well-founded `gcd`
normalisation), so the executable model uses unnormalised fractions —
an integer numerator over a positive natural denominator — with
arithmetic and comparisons by cross-multiplication, and a semantic map
`JsNum.toRat` into `ℚ` used by the theorem statements. -/

structure JsNum where
  num : Int
  den : Nat
  dpos : 0 < den
  deriving DecidableEq

instance : Repr JsNum := ⟨fun a _ => repr (a.num, a.den)⟩

def JsNum.ofInt (n : Int) : JsNum := ⟨n, 1, one_pos⟩

def JsNum.toRat (a : JsNum) : ℚ := (a.num : ℚ) / (a.den : ℚ)

def JsNum.neg (a : JsNum) : JsNum := ⟨-a.num, a.den, a.dpos⟩

def JsNum.mul (a b : JsNum) : JsNum :=
  ⟨a.num * b.num, a.den * b.den, Nat.mul_pos a.dpos b.dpos⟩

def JsNum.sub (a b : JsNum) : JsNum :=
  ⟨a.num * b.den - b.num * a.den, a.den * b.den, Nat.mul_pos a.dpos b.dpos⟩

/-- Boolean `a ≤ b` by cross-multiplication. -/
def JsNum.leB (a b : JsNum) : Bool :=
  decide (a.num * (b.den : Int) ≤ b.num * (a.den : Int))

/-- Boolean `a < b` by cross-multiplication. -/
def JsNum.ltB (a b : JsNum) : Bool :=
  decide (a.num * (b.den : Int) < b.num * (a.den : Int))

/-- JavaScript `value == 0` / falsiness of a number. -/
def JsNum.isZero (a : JsNum) : Bool := a.num = 0

/-! ## JSON values

JavaScript values produced by `JSON.parse`. -/

inductive Json where
  | null : Json
  | bool : Bool → Json
  | num : JsNum → Json
  | str : String → Json
  | arr : List Json → Json
  | obj : List (String × Json) → Json
  deriving Repr

def Json.isNull : Json → Bool
  | .null => true
  | _ => false

/-- Property lookup on a parsed JSON object.  `JSON.parse` keeps the
last occurrence of a duplicated key, which a left fold reproduces. -/
def objGet (kvs : List (String × Json)) (k : String) : Option Json :=
  kvs.foldl (fun acc p => if p.1 = k then some p.2 else acc) none

/-! ## JSON parser (`JSON.parse`)

A recursive-descent parser for the JSON grammar accepted by
`JSON.parse`, over lists of characters, with explicit fuel for
termination.  JSON strings containing lone UTF-16 surrogates (legal in
JavaScript, not representable as Lean strings) are rejected by the
parser; no token in this development contains one. -/

def jsonWs (c : Char) : Bool :=
  c = ' ' ∨ c = '\t' ∨ c = '\n' ∨ c = '\r'

def skipWs : List Char → List Char
  | [] => []
  | c :: cs => if jsonWs c then skipWs cs else c :: cs

def isDigit (c : Char) : Bool := '0' ≤ c ∧ c ≤ '9'

def digitsToNat (ds : List Char) : Nat :=
  ds.foldl (fun a c => a * 10 + (c.toNat - 48)) 0

def takeDigits : List Char → List Char × List Char
  | [] => ([], [])
  | c :: cs =>
    if isDigit c then
      let (ds, rest) := takeDigits cs
      (c :: ds, rest)
    else ([], c :: cs)

/-- Exact value of a JSON number literal
`sign intDigits . fracDigits e expSign expDigits`, namely
`± mantissa · 10 ^ (exponent − #fracDigits)`. -/
def jsonNumVal (neg : Bool) (intDs fracDs : List Char) (expNeg : Bool)
    (expDs : List Char) : JsNum :=
  let mant : Nat := digitsToNat (intDs ++ fracDs)
  let e : Int := (if expNeg then -(digitsToNat expDs : Int) else (digitsToNat expDs : Int))
    - (fracDs.length : Int)
  let sgn : Int := if neg then -1 else 1
  if 0 ≤ e then
    ⟨sgn * mant * 10 ^ e.toNat, 1, one_pos⟩
  else
    ⟨sgn * mant, 10 ^ (-e).toNat, Nat.pow_pos (by norm_num)⟩

/-- Parse the body of a JSON number after an optional leading `-`. -/
def parseNumBody (neg : Bool) (cs : List Char) : Option (Json × List Char) :=
  match cs with
  | [] => none
  | c :: rest =>
    if c = '0' then
      parseFracExp neg ['0'] rest
    else if isDigit c then
      let (ds, rest') := takeDigits rest
      parseFracExp neg (c :: ds) rest'
    else none
where
  parseFracExp (neg : Bool) (intDs : List Char) (cs : List Char) :
      Option (Json × List Char) :=
    let (fracDs, cs1) :=
      match cs with
      | '.' :: cs' =>
        let (ds, rest) := takeDigits cs'
        (ds, rest)
      | _ => ([], cs)
    match cs, fracDs with
    | '.' :: _, [] => none  -- a '.' must be followed by at least one digit
    | _, _ =>
      match cs1 with
      | 'e' :: cs2 => parseExp neg intDs fracDs cs2
      | 'E' :: cs2 => parseExp neg intDs fracDs cs2
      | _ => some (.num (jsonNumVal neg intDs fracDs false []), cs1)
  parseExp (neg : Bool) (intDs fracDs : List Char) (cs : List Char) :
      Option (Json × List Char) :=
    let (expNeg, cs1) :=
      match cs with
      | '+' :: cs' => (false, cs')
      | '-' :: cs' => (true, cs')
      | _ => (false, cs)
    match takeDigits cs1 with
    | ([], _) => none
    | (ds, rest) => some (.num (jsonNumVal neg intDs fracDs expNeg ds), rest)

def hexVal (c : Char) : Option Nat :=
  if isDigit c then some (c.toNat - 48)
  else if 'a' ≤ c ∧ c ≤ 'f' then some (c.toNat - 87)
  else if 'A' ≤ c ∧ c ≤ 'F' then some (c.toNat - 55)
  else none

/-- Parse a JSON string body after the opening quote.  Unescaped control
characters are rejected; `\uXXXX` escapes pair surrogates, and lone
surrogates are rejected (see the parser's header comment). -/
def parseStringBody : List Char → Option (List Char × List Char)
  | [] => none
  | c :: cs =>
    if c = '"' then some ([], cs)
    else if c = '\\' then
      match cs with
      | [] => none
      | e :: cs' =>
        let simple : Option Char :=
          if e = '"' then some '"'
          else if e = '\\' then some '\\'
          else if e = '/' then some '/'
          else if e = 'b' then some (Char.ofNat 8)
          else if e = 'f' then some (Char.ofNat 12)
          else if e = 'n' then some '\n'
          else if e = 'r' then some '\r'
          else if e = 't' then some '\t'
          else none
        match simple with
        | some ch =>
          match parseStringBody cs' with
          | some (s, rest) => some (ch :: s, rest)
          | none => none
        | none =>
          if e = 'u' then
            match cs' with
            | h1 :: h2 :: h3 :: h4 :: cs'' =>
              match hexVal h1, hexVal h2, hexVal h3, hexVal h4 with
              | some x1, some x2, some x3, some x4 =>
                let u1 := ((x1 * 16 + x2) * 16 + x3) * 16 + x4
                if 0xD800 ≤ u1 ∧ u1 ≤ 0xDBFF then
                  match cs'' with
                  | '\\' :: 'u' :: g1 :: g2 :: g3 :: g4 :: cs4 =>
                    match hexVal g1, hexVal g2, hexVal g3, hexVal g4 with
                    | some y1, some y2, some y3, some y4 =>
                      let u2 := ((y1 * 16 + y2) * 16 + y3) * 16 + y4
                      if 0xDC00 ≤ u2 ∧ u2 ≤ 0xDFFF then
                        let cp := 0x10000 + (u1 - 0xD800) * 0x400 + (u2 - 0xDC00)
                        match parseStringBody cs4 with
                        | some (s, rest) => some (Char.ofNat cp :: s, rest)
                        | none => none
                      else none
                    | _, _, _, _ => none
                  | _ => none
                else if 0xDC00 ≤ u1 ∧ u1 ≤ 0xDFFF then none
                else
                  match parseStringBody cs'' with
                  | some (s, rest) => some (Char.ofNat u1 :: s, rest)
                  | none => none
              | _, _, _, _ => none
            | _ => none
          else none
    else if c.toNat < 0x20 then none
    else
      match parseStringBody cs with
      | some (s, rest) => some (c :: s, rest)
      | none => none

mutual

def parseVal : Nat → List Char → Option (Json × List Char)
  | 0, _ => none
  | fuel + 1, cs =>
    match skipWs cs with
    | [] => none
    | c :: rest =>
      if c = 'n' then
        match rest with
        | 'u' :: 'l' :: 'l' :: rest' => some (.null, rest')
        | _ => none
      else if c = 't' then
        match rest with
        | 'r' :: 'u' :: 'e' :: rest' => some (.bool true, rest')
        | _ => none
      else if c = 'f' then
        match rest with
        | 'a' :: 'l' :: 's' :: 'e' :: rest' => some (.bool false, rest')
        | _ => none
      else if c = '"' then
        match parseStringBody rest with
        | some (s, rest') => some (.str ⟨s⟩, rest')
        | none => none
      else if c = '-' then parseNumBody true rest
      else if isDigit c then parseNumBody false (c :: rest)
      else if c = '[' then
        match skipWs rest with
        | ']' :: rest' => some (.arr [], rest')
        | cs' => parseElems fuel cs' []
      else if c = '{' then
        match skipWs rest with
        | '}' :: rest' => some (.obj [], rest')
        | cs' => parseMembers fuel cs' []
      else none

/-- Elements of an array after `[`, accumulated in reverse. -/
def parseElems : Nat → List Char → List Json → Option (Json × List Char)
  | 0, _, _ => none
  | fuel + 1, cs, acc =>
    match parseVal fuel cs with
    | none => none
    | some (v, rest) =>
      match skipWs rest with
      | ',' :: rest' => parseElems fuel rest' (v :: acc)
      | ']' :: rest' => some (.arr (v :: acc).reverse, rest')
      | _ => none

/-- Members of an object after `{`, accumulated in reverse. -/
def parseMembers : Nat → List Char → List (String × Json) →
    Option (Json × List Char)
  | 0, _, _ => none
  | fuel + 1, cs, acc =>
    match skipWs cs with
    | '"' :: rest =>
      match parseStringBody rest with
      | none => none
      | some (k, rest') =>
        match skipWs rest' with
        | ':' :: rest2 =>
          match parseVal fuel rest2 with
          | none => none
          | some (v, rest3) =>
            match skipWs rest3 with
            | ',' :: rest4 => parseMembers fuel rest4 ((⟨k⟩, v) :: acc)
            | '}' :: rest4 => some (.obj ((⟨k⟩, v) :: acc).reverse, rest4)
            | _ => none
        | _ => none
    | _ => none

end

/-- `JSON.parse`: parse a complete JSON text (the whole input must be
consumed up to trailing whitespace); `none` models a thrown
`SyntaxError`. -/
def jsonParse (cs : List Char) : Option Json :=
  match parseVal (2 * cs.length + 2) cs with
  | none => none
  | some (v, rest) =>
    match skipWs rest with
    | [] => some v
    | _ => none

/-! ## Base64 decoding (`atob`)

`window.atob` performs the WHATWG forgiving-base64 decode: strip ASCII
whitespace, strip up to two trailing `=` when the length is a multiple
of four, fail on a remainder of one or on characters outside the
base64 alphabet, and decode six bits per character, discarding excess
bits of a trailing chunk of two or three characters.  `none` models a
thrown `InvalidCharacterError`. -/

def asciiWs (c : Char) : Bool :=
  c = ' ' ∨ c = '\t' ∨ c = '\n' ∨ c = Char.ofNat 12 ∨ c = '\r'

def b64Val (c : Char) : Option Nat :=
  if 'A' ≤ c ∧ c ≤ 'Z' then some (c.toNat - 65)
  else if 'a' ≤ c ∧ c ≤ 'z' then some (c.toNat - 71)
  else if isDigit c then some (c.toNat + 4)
  else if c = '+' then some 62
  else if c = '/' then some 63
  else none

def stripTrailingEq (cs : List Char) : List Char :=
  match cs.reverse with
  | '=' :: '=' :: rest => rest.reverse
  | '=' :: rest => rest.reverse
  | _ => cs

/-- Decode a list of six-bit values into bytes.  A final chunk of two
or three values yields one or two bytes, excess low bits discarded. -/
def b64Bytes : List Nat → List Nat
  | a :: b :: c :: d :: rest =>
    (a * 4 + b / 16) :: ((b % 16) * 16 + c / 4) :: ((c % 4) * 64 + d) :: b64Bytes rest
  | [a, b] => [a * 4 + b / 16]
  | [a, b, c] => [a * 4 + b / 16, (b % 16) * 16 + c / 4]
  | _ => []

def atob (cs : List Char) : Option (List Nat) :=
  let data := cs.filter (fun c => ¬ asciiWs c)
  let data := if data.length % 4 = 0 then stripTrailingEq data else data
  if data.length % 4 = 1 then none
  else
    match data.mapM b64Val with
    | none => none
    | some vals => some (b64Bytes vals)

/-! ## UTF-8 decoding

The source percent-encodes each byte returned by `atob` and feeds the
result to `decodeURIComponent`; that composite is exactly a strict
UTF-8 decode of the byte sequence, throwing `URIError` (modelled as
`none`) on any invalid sequence (overlong forms, surrogates, values
past U+10FFFF, truncated sequences). -/

def utf8Decode : List Nat → Option (List Char)
  | [] => some []
  | b :: rest =>
    if b < 0x80 then
      match utf8Decode rest with
      | some s => some (Char.ofNat b :: s)
      | none => none
    else if b < 0xC2 then none
    else if b < 0xE0 then
      match rest with
      | c1 :: rest' =>
        if 0x80 ≤ c1 ∧ c1 ≤ 0xBF then
          match utf8Decode rest' with
          | some s => some (Char.ofNat ((b - 0xC0) * 64 + (c1 - 0x80)) :: s)
          | none => none
        else none
      | _ => none
    else if b < 0xF0 then
      match rest with
      | c1 :: c2 :: rest' =>
        if (0x80 ≤ c1 ∧ c1 ≤ 0xBF) ∧ (0x80 ≤ c2 ∧ c2 ≤ 0xBF) then
          let cp := (b - 0xE0) * 4096 + (c1 - 0x80) * 64 + (c2 - 0x80)
          if cp < 0x800 then none
          else if 0xD800 ≤ cp ∧ cp ≤ 0xDFFF then none
          else
            match utf8Decode rest' with
            | some s => some (Char.ofNat cp :: s)
            | none => none
        else none
      | _ => none
    else if b < 0xF5 then
      match rest with
      | c1 :: c2 :: c3 :: rest' =>
        if (0x80 ≤ c1 ∧ c1 ≤ 0xBF) ∧ (0x80 ≤ c2 ∧ c2 ≤ 0xBF) ∧ (0x80 ≤ c3 ∧ c3 ≤ 0xBF) then
          let cp := (b - 0xF0) * 262144 + (c1 - 0x80) * 4096 + (c2 - 0x80) * 64 + (c3 - 0x80)
          if cp < 0x10000 then none
          else if cp > 0x10FFFF then none
          else
            match utf8Decode rest' with
            | some s => some (Char.ofNat cp :: s)
            | none => none
        else none
      | _ => none
    else none

/-! ## Token codec (`src/utils/jwtUtils.ts`) -/

/-- `token.split('.')` — JavaScript `String.prototype.split` with a
single-character separator. -/
def splitOnChar (sep : Char) : List Char → List (List Char)
  | [] => [[]]
  | c :: rest =>
    let r := splitOnChar sep rest
    if c = sep then [] :: r
    else
      match r with
      | h :: t => (c :: h) :: t
      | [] => [[c]]

/-- `decodeJWT` (`jwtUtils.ts`): split on `.`, require a non-empty
second part, map base64url characters to base64, `atob`, UTF-8-decode
(the percent-encode / `decodeURIComponent` pair in the source), and
`JSON.parse`.  Every failure is caught and surfaces as the same `null`
the function returns, as does a successfully parsed JSON `null`
(JavaScript has a single `null` value); both are modelled as `none`. -/
def decodeJWT (token : String) : Option Json :=
  let parts := splitOnChar '.' token.data
  match parts[1]? with
  | none => none
  | some p1 =>
    if p1 = [] then none
    else
      let base64 := p1.map fun c => if c = '-' then '+' else if c = '_' then '/' else c
      match atob base64 with
      | none => none
      | some bytes =>
        match utf8Decode bytes with
        | none => none
        | some chars =>
          match jsonParse chars with
          | none => none
          | some j => if j.isNull then none else some j

/-- The raw `exp` property of a decoded payload (`payload.exp`):
defined for JSON objects, `none` (JavaScript `undefined`) otherwise. -/
def getExpField : Json → Option Json
  | .obj kvs => objGet kvs "exp"
  | _ => none

/-- Decimal printing of a number (`String(n)` / `Number.prototype.toString`).
Integers print exactly; a non-integral value prints its exact decimal
expansion when the denominator divides a power of ten (every value
`jsonParse` produces does), and its truncation otherwise — double
shortest-round-trip printing is not modelled, and no value in this
development exercises it. -/
def natDigits (n : Nat) : List Char :=
  (Nat.toDigits 10 n)

/-- Smallest `k` (up to the given fuel) with `den ∣ 10^k`. -/
def decExponent (den : Nat) : Nat → Option Nat
  | 0 => if 10 ^ 0 % den = 0 then some 0 else none
  | k + 1 =>
    match decExponent den k with
    | some j => some j
    | none => if 10 ^ (k + 1) % den = 0 then some (k + 1) else none

def stringifyNum (a : JsNum) : List Char :=
  let sign : List Char := if a.num < 0 then ['-'] else []
  let n : Nat := a.num.natAbs
  if a.den = 1 then sign ++ natDigits n
  else
    match decExponent a.den a.den with
    | some k =>
      let scaled := n * (10 ^ k / a.den)
      let whole := scaled / 10 ^ k
      let frac := scaled % 10 ^ k
      if frac = 0 then sign ++ natDigits whole
      else
        let fracDs := natDigits frac
        let padded := List.replicate (k - fracDs.length) '0' ++ fracDs
        let trimmed := (padded.reverse.dropWhile (· = '0')).reverse
        sign ++ natDigits whole ++ '.' :: trimmed
    | none => sign ++ natDigits (n / a.den)

/-! ## JavaScript falsiness and numeric coercion

`isTokenExpired` tests `!payload.exp` and then computes
`payload.exp * 1000`: the first is JavaScript falsiness of the property
value, the second applies `ToNumber` to it.  A non-numeric truthy `exp`
therefore reaches the multiplication and coerces — numeric strings
compare like numbers, everything unparsable becomes `NaN`, and a
comparison against `NaN` (or `+Infinity`) is `false`.  Under the exact-
rational convention a number is `finite`, `NaN`, or a signed infinity
(produced only by the literal `Infinity` strings; double overflow and
rounding are not modelled). -/

inductive JsNumExt where
  | finite (q : JsNum)
  | nan
  | inf
  | negInf

/-- JavaScript falsiness of a value: `null`, `false`, `0` and the
empty string are falsy; every array and object (even empty) is
truthy. -/
def jsFalsy : Json → Bool
  | .null => true
  | .bool b => !b
  | .num q => q.isZero
  | .str s => s = ""
  | .arr _ => false
  | .obj _ => false

/-- The white space and line terminators `ToNumber` trims from a
string. -/
def jsStrWs (c : Char) : Bool :=
  c.toNat = 0x9 ∨ c.toNat = 0xA ∨ c.toNat = 0xB ∨ c.toNat = 0xC ∨
  c.toNat = 0xD ∨ c.toNat = 0x20 ∨ c.toNat = 0xA0 ∨ c.toNat = 0x1680 ∨
  (0x2000 ≤ c.toNat ∧ c.toNat ≤ 0x200A) ∨ c.toNat = 0x2028 ∨
  c.toNat = 0x2029 ∨ c.toNat = 0x202F ∨ c.toNat = 0x205F ∨
  c.toNat = 0x3000 ∨ c.toNat = 0xFEFF

def trimJsWs (cs : List Char) : List Char :=
  ((cs.dropWhile jsStrWs).reverse.dropWhile jsStrWs).reverse

def octVal (c : Char) : Option Nat :=
  if '0' ≤ c ∧ c ≤ '7' then some (c.toNat - 48) else none

def binVal (c : Char) : Option Nat :=
  if c = '0' then some 0 else if c = '1' then some 1 else none

/-- Value of a non-empty, all-valid digit string in the given base;
`none` when empty or any digit is invalid. -/
def radixVal (digitVal : Char → Option Nat) (base : Nat) (cs : List Char) :
    Option Nat :=
  match cs with
  | [] => none
  | _ =>
    cs.foldl
      (fun acc c =>
        match acc, digitVal c with
        | some a, some d => some (a * base + d)
        | _, _ => none)
      (some 0)

/-- `StrUnsignedDecimalLiteral` without the `Infinity` case: digits with
an optional fraction (either side of the dot may be empty, but not
both) and an optional exponent; the whole input must be consumed. -/
def parseUnsignedDec (cs : List Char) : Option JsNum :=
  let (intDs, r1) := takeDigits cs
  let (fracDs, r2) :=
    match r1 with
    | '.' :: r => takeDigits r
    | _ => ([], r1)
  if intDs = [] ∧ fracDs = [] then none
  else
    match r2 with
    | [] => some (jsonNumVal false intDs fracDs false [])
    | 'e' :: r => parseExpTail intDs fracDs r
    | 'E' :: r => parseExpTail intDs fracDs r
    | _ => none
where
  parseExpTail (intDs fracDs r : List Char) : Option JsNum :=
    let (eneg, r1) :=
      match r with
      | '+' :: rr => (false, rr)
      | '-' :: rr => (true, rr)
      | _ => (false, r)
    match takeDigits r1 with
    | ([], _) => none
    | (ds, rest) =>
      if rest = [] then some (jsonNumVal false intDs fracDs eneg ds) else none

/-- `ToNumber` applied to a string (`StringToNumber`): trim, empty is
`0`, then a signed decimal literal or `Infinity`, or an unsigned
`0x`/`0o`/`0b` radix literal; anything else is `NaN`. -/
def strToNumber (s : String) : JsNumExt :=
  match trimJsWs s.data with
  | [] => .finite (.ofInt 0)
  | cs =>
    match cs with
    | '0' :: x :: r =>
      if x = 'x' ∨ x = 'X' then radixResult hexVal 16 r
      else if x = 'o' ∨ x = 'O' then radixResult octVal 8 r
      else if x = 'b' ∨ x = 'B' then radixResult binVal 2 r
      else signedDec cs
    | _ => signedDec cs
where
  radixResult (digitVal : Char → Option Nat) (base : Nat) (r : List Char) :
      JsNumExt :=
    match radixVal digitVal base r with
    | some n => .finite (.ofInt n)
    | none => .nan
  signedDec (cs : List Char) : JsNumExt :=
    let (neg, body) :=
      match cs with
      | '+' :: r => (false, r)
      | '-' :: r => (true, r)
      | _ => (false, cs)
    if body = "Infinity".data then (if neg then .negInf else .inf)
    else
      match parseUnsignedDec body with
      | some q => .finite (if neg then q.neg else q)
      | none => .nan

mutual

/-- `String(element)` as used by `Array.prototype.join`: `null` (and
`undefined`) print as the empty string, nested arrays join
recursively, plain objects print `[object Object]`. -/
def jsJoinElem : Json → List Char
  | .null => []
  | .bool true => 't' :: 'r' :: 'u' :: 'e' :: []
  | .bool false => 'f' :: 'a' :: 'l' :: 's' :: 'e' :: []
  | .num q => stringifyNum q
  | .str s => s.data
  | .arr l => jsArrayJoin l
  | .obj _ => '[' :: 'o' :: 'b' :: 'j' :: 'e' :: 'c' :: 't' :: ' ' ::
      'O' :: 'b' :: 'j' :: 'e' :: 'c' :: 't' :: ']' :: []

/-- `Array.prototype.join(',')`. -/
def jsArrayJoin : List Json → List Char
  | [] => []
  | [x] => jsJoinElem x
  | x :: xs => jsJoinElem x ++ ',' :: jsArrayJoin xs

end

/-- `ToNumber` of a parsed JSON value, as applied by
`payload.exp * 1000`: numbers are themselves, `true` is `1`, strings
parse numerically, an array converts through its joined string
(`ToPrimitive`), and a plain object becomes `NaN` (its primitive form
`[object Object]` is not numeric). -/
def jsToNumber : Json → JsNumExt
  | .num q => .finite q
  | .null => .finite (.ofInt 0)
  | .bool b => .finite (.ofInt (if b then 1 else 0))
  | .str s => strToNumber s
  | .arr l => strToNumber ⟨jsArrayJoin l⟩
  | .obj _ => .nan

/-- The instant `claimedExpiry − skewBuffer`, i.e.
`exp * 1000 - 5000` (`exp` in seconds, instants in milliseconds). -/
def expiryCutoff (q : JsNum) : JsNum :=
  (q.mul (.ofInt 1000)).sub (.ofInt 5000)

/-- `isTokenExpired` (`jwtUtils.ts`).  `token` is `string | null`;
`now` is `Date.now()` in milliseconds.  A falsy token (`null` or the
empty string), an undecodable payload, and an absent or falsy `exp`
property (the `!payload || !payload.exp` guard) are all expired;
otherwise `payload.exp * 1000` coerces the claim with `ToNumber` and
the token is expired when `now ≥ exp·1000 − 5000` (the 5-second
clock-skew buffer `CLOCK_SKEW_BUFFER_MS`) — so a claim coercing to
`NaN` or `+Infinity` makes the comparison `false` (never expired),
while `-Infinity` makes it `true`. -/
def isTokenExpired (token : Option String) (now : JsNum) : Bool :=
  match token with
  | none => true
  | some t =>
    if t = "" then true
    else
      match decodeJWT t with
      | none => true
      | some payload =>
        match getExpField payload with
        | none => true
        | some v =>
          if jsFalsy v then true
          else
            match jsToNumber v with
            | .finite q => (expiryCutoff q).leB now
            | .nan => false
            | .inf => false
            | .negInf => true

/-- Truncation toward zero, `ToInteger` of a finite JavaScript
number. -/
def JsNum.truncInt (a : JsNum) : Int :=
  if 0 ≤ a.num then ((a.num.toNat / a.den : Nat) : Int)
  else -(((-a.num).toNat / a.den : Nat) : Int)

/-- `TimeClip`: `new Date(ms)` stores the integral part of `ms`, and
becomes an Invalid Date (`none`) when `|ms|` exceeds 8.64·10¹⁵. -/
def timeClip (a : JsNum) : Option JsNum :=
  if 8640000000000000 * (a.den : Int) < a.num.natAbs then none
  else some (.ofInt a.truncInt)

/-- `getTokenExpirationTime` (`jwtUtils.ts`): `null` (outer `none`) for
a falsy token, an undecodable payload or an absent/falsy `exp`;
otherwise the `Date` built from `exp * 1000`, which is an Invalid Date
(inner `none`) when the coerced claim is `NaN` or an infinity or the
instant is out of `Date` range. -/
def getTokenExpirationTime (token : Option String) : Option (Option JsNum) :=
  match token with
  | none => none
  | some t =>
    if t = "" then none
    else
      match decodeJWT t with
      | none => none
      | some payload =>
        match getExpField payload with
        | none => none
        | some v =>
          if jsFalsy v then none
          else
            match jsToNumber v with
            | .finite q => some (timeClip (q.mul (.ofInt 1000)))
            | _ => some none

/-- `getTokenTimeRemaining` (`jwtUtils.ts`): `null` for a falsy token
or a `null` expiration; otherwise `max 0 (expiry − now)`.  An Invalid
Date is truthy, and `NaN − now > 0` is false, so it yields `0`. -/
def getTokenTimeRemaining (token : Option String) (now : JsNum) : Option JsNum :=
  match token with
  | none => none
  | some t =>
    if t = "" then none
    else
      match getTokenExpirationTime (some t) with
      | none => none
      | some none => some (.ofInt 0)
      | some (some ms) =>
        let r := ms.sub now
        if (JsNum.ofInt 0).ltB r then some r else some (.ofInt 0)

/-- `isTokenExpiringSoon` (`jwtUtils.ts`): true when the remaining time
is strictly positive and at most `minutes` minutes
(`minutes * MINUTES_TO_MS`). -/
def isTokenExpiringSoon (token : Option String) (minutes : JsNum) (now : JsNum) : Bool :=
  match token with
  | none => true
  | some t =>
    if t = "" then true
    else
      match getTokenTimeRemaining (some t) now with
      | none => true
      | some r =>
        (JsNum.ofInt 0).ltB r && r.leB (minutes.mul (.ofInt (60 * 1000)))

/-! ## `JSON.stringify`

Serialisation of the values this client stores (`JSON.stringify(user)`
in `setCredentials`).  Integers print exactly; a non-integral number
prints its exact decimal expansion when the denominator divides a
power of ten (every value produced by `jsonParse` does), and its
truncation otherwise — double shortest-round-trip printing is not
modelled, and no value in this development exercises it. -/

def hexDigitChar (n : Nat) : Char :=
  if n < 10 then Char.ofNat (48 + n) else Char.ofNat (87 + n)

def escapeJsonChar (c : Char) : List Char :=
  if c = '"' then ['\\', '"']
  else if c = '\\' then ['\\', '\\']
  else if c = Char.ofNat 8 then ['\\', 'b']
  else if c = '\t' then ['\\', 't']
  else if c = '\n' then ['\\', 'n']
  else if c = Char.ofNat 12 then ['\\', 'f']
  else if c = '\r' then ['\\', 'r']
  else if c.toNat < 0x20 then
    ['\\', 'u', '0', '0', hexDigitChar (c.toNat / 16), hexDigitChar (c.toNat % 16)]
  else [c]

mutual

def jsonStringify : Json → List Char
  | .null => 'n' :: 'u' :: 'l' :: 'l' :: []
  | .bool true => 't' :: 'r' :: 'u' :: 'e' :: []
  | .bool false => 'f' :: 'a' :: 'l' :: 's' :: 'e' :: []
  | .num q => stringifyNum q
  | .str s => '"' :: s.data.flatMap escapeJsonChar ++ ['"']
  | .arr xs => '[' :: stringifyElems xs ++ [']']
  | .obj kvs => '{' :: stringifyPairs kvs ++ ['}']

def stringifyElems : List Json → List Char
  | [] => []
  | [x] => jsonStringify x
  | x :: xs => jsonStringify x ++ ',' :: stringifyElems xs

def stringifyPairs : List (String × Json) → List Char
  | [] => []
  | [(k, v)] => '"' :: k.data.flatMap escapeJsonChar ++ '"' :: ':' :: jsonStringify v
  | (k, v) :: kvs =>
    '"' :: k.data.flatMap escapeJsonChar ++ '"' :: ':' :: jsonStringify v
      ++ ',' :: stringifyPairs kvs

end

/-! ## Session store (`src/features/auth/slice/authSlice.ts`)

The Redux auth slice.  `AuthState` mirrors the slice's state; `Storage`
models the two `localStorage` keys (`'token'`, `'user'`) the slice
reads and writes.  A stored ISO-8601 expiry string is modelled by the
instant it denotes (the `toISOString` / `new Date(…).getTime()` round
trip is exact for the clipped integral instants `Date` produces). -/

structure AuthState where
  token : Option String
  user : Option Json
  isAuthenticated : Bool
  isLoading : Bool
  tokenExpiry : Option JsNum

structure Storage where
  tokenItem : Option String
  userItem : Option String
  deriving DecidableEq

/-- `getInitialAuthState` (`authSlice.ts`): reconstruct the initial
auth state from `localStorage` at process start (`now` is the instant
of the module load). -/
def getInitialAuthState (sto : Storage) (now : JsNum) : AuthState :=
  let token := sto.tokenItem
  let user : Option Json :=
    match sto.userItem with
    | none => none
    | some s =>
      match jsonParse s.data with
      | none => none                              -- JSON.parse threw: user stays null
      | some j => if j.isNull then none else some j
  let isAuth : Bool :=
    match token with
    | none => false
    | some t => if t = "" then false else ! isTokenExpired (some t) now
  let tokenExpiry : Option JsNum :=
    match token with
    | none => none
    | some t =>
      if t = "" then none
      else if isAuth then
        match getTokenExpirationTime (some t) with
        | some (some ms) => if now.ltB ms then some ms else none
        | _ => none                               -- null, or Invalid Date (NaN > now is false)
      else none
  { token := token, user := user, isAuthenticated := isAuth,
    isLoading := false, tokenExpiry := tokenExpiry }

/-- Result of dispatching an action whose reducer may throw: the state
and storage afterwards, and whether an exception propagated to the
dispatching caller. -/
structure DispatchOutcome where
  state : AuthState
  storage : Storage
  threw : Bool

/-- `setCredentials` (`authSlice.ts`).  The reducer body runs inside
Immer's `produce`: draft field assignments are committed only if the
recipe returns normally, so a throw leaves the in-memory state
unchanged, while `localStorage` writes already performed persist.
`okToken` / `okUser` say whether the corresponding
`localStorage.setItem` call succeeds (`false` models a quota /
unavailability exception); the reducer wraps neither write in a
`try`/`catch`.  `toISOString()` on the Invalid Date produced by an
out-of-range expiry throws a `RangeError`, also uncaught. -/
def setCredentials (st : AuthState) (sto : Storage) (okToken okUser : Bool)
    (token : String) (user : Json) : DispatchOutcome :=
  let expiryRes := getTokenExpirationTime (some token)
  if expiryRes = some none then ⟨st, sto, true⟩
  else
    let texp : Option JsNum :=
      match expiryRes with
      | some (some ms) => some ms
      | _ => none
    if okToken = false then ⟨st, sto, true⟩
    else
      let sto1 : Storage := { sto with tokenItem := some token }
      if okUser = false then ⟨st, sto1, true⟩
      else
        ⟨{ token := some token, user := some user, isAuthenticated := true,
           isLoading := st.isLoading, tokenExpiry := texp },
         { sto1 with userItem := some ⟨jsonStringify user⟩ }, false⟩

/-- `logout` (`authSlice.ts`): clear every session field and remove
both persisted items; `localStorage.removeItem` never throws. -/
def logout (st : AuthState) (_sto : Storage) : AuthState × Storage :=
  ({ token := none, user := none, isAuthenticated := false,
     isLoading := st.isLoading, tokenExpiry := none },
   { tokenItem := none, userItem := none })

/-- `setLoading` (`authSlice.ts`). -/
def setLoading (st : AuthState) (b : Bool) : AuthState :=
  { st with isLoading := b }

/-! ## System traces

Reachable states of the session store: an initial state reconstructed
from arbitrary durable storage, followed by any sequence of dispatched
actions with arbitrary arguments.  Each event carries the wall-clock
instant at which it is dispatched, and the ghost field `expirySetAt`
records the instant at which the current cached expiry was computed
(the "moment it was set" of the invariant claim). -/

structure SysState where
  auth : AuthState
  storage : Storage
  expirySetAt : Option JsNum

inductive AuthEvent where
  | setCreds (token : String) (user : Json) (okToken okUser : Bool)
  | logoutEvt
  | setLoadingEvt (b : Bool)

def stepEvent (s : SysState) (e : AuthEvent) (now : JsNum) : SysState :=
  match e with
  | .setCreds t u okT okU =>
    let r := setCredentials s.auth s.storage okT okU t u
    { auth := r.state, storage := r.storage,
      expirySetAt := if r.threw then s.expirySetAt else some now }
  | .logoutEvt =>
    let (a, st) := logout s.auth s.storage
    { auth := a, storage := st, expirySetAt := none }
  | .setLoadingEvt b =>
    { s with auth := setLoading s.auth b }

def initSys (sto : Storage) (now : JsNum) : SysState :=
  { auth := getInitialAuthState sto now, storage := sto, expirySetAt := some now }

def runTrace (init : SysState) : List (AuthEvent × JsNum) → SysState
  | [] => init
  | (e, τ) :: rest => runTrace (stepEvent init e τ) rest

/-! ## HTTP transport adapter (`src/api/baseApi.ts`)

`fetchBaseQuery`'s `prepareHeaders` callback, and the
`baseQueryWithReauth` wrapper's 401 handling.  Fetch `Headers` are a
case-insensitively keyed multimap, modelled as an association list with
ASCII-lowercased comparisons. -/

abbrev Headers := List (String × String)

def lowerChar (c : Char) : Char :=
  if 'A' ≤ c ∧ c ≤ 'Z' then Char.ofNat (c.toNat + 32) else c

def lowerStr (s : String) : String := ⟨s.data.map lowerChar⟩

def headersDelete (hs : Headers) (name : String) : Headers :=
  hs.filter fun p => lowerStr p.1 ≠ lowerStr name

def headersSet (hs : Headers) (name v : String) : Headers :=
  headersDelete hs name ++ [(name, v)]

def headersGet (hs : Headers) (name : String) : Option String :=
  (hs.find? fun p => lowerStr p.1 = lowerStr name).map Prod.snd

def startsWithList : List Char → List Char → Bool
  | [], _ => true
  | _ :: _, [] => false
  | a :: as, b :: bs => a = b && startsWithList as bs

def hasSubList (pat : List Char) : List Char → Bool
  | [] => startsWithList pat []
  | c :: cs => startsWithList pat (c :: cs) || hasSubList pat cs

/-- JavaScript `String.prototype.includes`. -/
def containsSub (s pat : String) : Bool :=
  hasSubList pat.data s.data

/-- The login-endpoint test of `prepareHeaders`:
`endpoint.toLowerCase().includes('login')` (RTK Query endpoint names
are always strings). -/
def endpointIsLogin (endpoint : String) : Bool :=
  containsSub (lowerStr endpoint) "login"

/-- The expiry test the adapter applies to the store's token: the
cached `tokenExpiry` with the 5-second buffer when present, otherwise
`isTokenExpired`'s own decoding fallback. -/
def knownExpired (token : Option String) (tokenExpiry : Option JsNum)
    (now : JsNum) : Bool :=
  match tokenExpiry with
  | some ms => (ms.sub (.ofInt 5000)).leB now
  | none => isTokenExpired token now

/-- `prepareHeaders` (`baseApi.ts`): the headers the request will carry
and whether `handleSessionExpiry` (logout + redirect) was invoked.  On
a login endpoint both spellings of the authorization header are
deleted; otherwise a present, unexpired token is attached as
`Bearer …`, and an expired one triggers `handleSessionExpiry` with the
headers returned unmodified. -/
def prepareHeaders (endpoint : String) (headers : Headers)
    (token : Option String) (tokenExpiry : Option JsNum) (now : JsNum) :
    Headers × Bool :=
  if endpointIsLogin endpoint then
    (headersDelete (headersDelete headers "authorization") "Authorization", false)
  else
    match token with
    | none => (headers, false)
    | some t =>
      if t = "" then (headers, false)
      else
        match tokenExpiry with
        | some ms =>
          if (ms.sub (.ofInt 5000)).leB now then (headers, true)
          else (headersSet headers "authorization" ("Bearer " ++ t), false)
        | none =>
          if isTokenExpired (some t) now then (headers, true)
          else (headersSet headers "authorization" ("Bearer " ++ t), false)

/-- What the transport does with a prepared request. -/
inductive PreRequest where
  | send (headers : Headers) (sessionEnded : Bool)
  | abort
  deriving DecidableEq

/-- The pre-request phase of the adapter.  `fetchBaseQuery` issues the
HTTP request with whatever headers `prepareHeaders` returns —
`prepareHeaders` has no channel through which it can cancel the
request, so the outcome is always `send`. -/
def baseQueryPreRequest (endpoint : String) (headers : Headers)
    (token : Option String) (tokenExpiry : Option JsNum) (now : JsNum) :
    PreRequest :=
  let r := prepareHeaders endpoint headers token tokenExpiry now
  .send r.1 r.2

/-- The `status` of an RTK Query fetch error: a numeric HTTP status or
one of the library's string statuses (`'FETCH_ERROR'`, …). -/
inductive ErrStatus where
  | code (n : Nat)
  | other (s : String)
  deriving DecidableEq

structure FetchError where
  status : ErrStatus
  deriving DecidableEq

/-- `baseQueryWithReauth` (`baseApi.ts`), post-response phase: when the
result carries an error with HTTP status 401 — whatever the endpoint —
`handleSessionExpiry` dispatches `logout`. -/
def baseQueryWithReauth (error : Option FetchError) (st : AuthState)
    (sto : Storage) : AuthState × Storage :=
  match error with
  | some e => if e.status = .code 401 then logout st sto else (st, sto)
  | none => (st, sto)

/-! ## Session monitor (`src/hooks/useSessionExpiry.ts`)

`checkTokenExpiry` is the periodic check; the `useEffect` that drives
it resets the `warningShownRef` latch and runs one immediate check
whenever the token changes, then one check per interval tick. -/

structure CheckResult where
  warningShown : Bool
  warned : Bool
  loggedOut : Bool
  deriving DecidableEq

/-- `checkTokenExpiry` (`useSessionExpiry.ts`): returns the latch value
after the check, whether the expiring-soon warning toast was emitted,
and whether the expired path (logout + toast + redirect) ran.  The
expiry comparison here uses the cached expiry with *no* skew buffer
(`currentTime >= expiryTime`), falling back to `isTokenExpired` when no
expiry is cached; the warning threshold is
`WARNING_THRESHOLD_MINUTES = 5`. -/
def checkTokenExpiry (token : Option String) (tokenExpiry : Option JsNum)
    (warningShown : Bool) (now : JsNum) : CheckResult :=
  match token with
  | none => ⟨warningShown, false, false⟩
  | some t =>
    if t = "" then ⟨warningShown, false, false⟩
    else
      let isExpired : Bool :=
        match tokenExpiry with
        | some ms => ms.leB now
        | none => isTokenExpired (some t) now
      if isExpired then ⟨warningShown, false, true⟩
      else if warningShown then ⟨warningShown, false, false⟩
      else
        let expiringSoon : Bool :=
          match tokenExpiry with
          | some ms =>
            let r := ms.sub now
            (JsNum.ofInt 0).ltB r && r.leB (.ofInt (5 * 60 * 1000))
          | none => isTokenExpiringSoon (some t) (.ofInt 5) now
        if expiringSoon then
          let timeRemaining : Option JsNum :=
            match tokenExpiry with
            | some ms => some (ms.sub now)
            | none => getTokenTimeRemaining (some t) now
          match timeRemaining with
          | none => ⟨warningShown, false, false⟩
          | some r =>
            if !r.isZero && (JsNum.ofInt 0).ltB r then ⟨true, true, false⟩
            else ⟨warningShown, false, false⟩
        else ⟨warningShown, false, false⟩

/-- Number of expiring-soon warnings emitted by a run of checks
starting from a given latch value, while token and cached expiry are
unchanged. -/
def warnCount (token : Option String) (texp : Option JsNum) :
    Bool → List JsNum → Nat
  | _, [] => 0
  | shown, τ :: rest =>
    let r := checkTokenExpiry token texp shown τ
    (if r.warned then 1 else 0) + warnCount token texp r.warningShown rest

/-- One monitor session: the `useEffect` body that runs whenever the
token changes or is cleared.  It resets `warningShownRef` to `false`
regardless of its previous value (`prevShown`), returns immediately
with no checks when the token is falsy, and otherwise runs the
immediate check and the interval checks (`times` is the list of check
instants).  The result is the number of warning toasts emitted. -/
def monitorSessionWarns (token : Option String) (texp : Option JsNum)
    (_prevShown : Bool) (times : List JsNum) : Nat :=
  match token with
  | none => 0
  | some t =>
    if t = "" then 0
    else warnCount (some t) texp false times

/-! ## Request-cache tags (`src/api/baseApi.ts`, `paymentApi.ts`,
`statsApi.ts`)

The cache engine itself is RTK Query library code, not part of this
repository; its tag-invalidation behaviour is modelled from the spec.
The repository contributes the tag declarations. -/

inductive TagType where
  | license | activation | subscription | payment | stats | auth | preferences | health
  deriving DecidableEq

/-- A full cache tag: a type from `tagTypes`, optionally parameterised
by an entity id. -/
structure CacheTag where
  ty : TagType
  id : Option Nat
  deriving DecidableEq

structure CacheEntry where
  key : String
  providedTags : List CacheTag
  subscribers : Nat
  stale : Bool
  deriving DecidableEq

def tagsIntersect (provided invalidated : List CacheTag) : Bool :=
  provided.any fun t => invalidated.any fun t' => t' = t

/-- Modelled from the spec: the request cache's tag-invalidation step
(RTK Query library code, not under `src/`).  "On successful write
completion, every currently cached entry whose provided-tag set
intersects the invalidated-tag set is marked stale and, if it currently
has subscribers, is refetched; if it has no subscribers, it is simply
dropped so the next subscription fetches fresh data."  Entries with
disjoint tags are untouched. -/
def applyInvalidation (cache : List CacheEntry) (invalidated : List CacheTag) :
    List CacheEntry :=
  (cache.filter fun e =>
    ¬ (tagsIntersect e.providedTags invalidated ∧ e.subscribers = 0)).map
    fun e =>
      if tagsIntersect e.providedTags invalidated ∧ 0 < e.subscribers then
        { e with stale := true }
      else e

/-- `createPayment` (`paymentApi.ts`): `invalidatesTags: ['Payment']`. -/
def createPaymentInvalidatesTags : List CacheTag := [⟨.payment, none⟩]

/-- `getDashboardStats` (`statsApi.ts`): `providesTags: ['Stats']`. -/
def getDashboardStatsProvidesTags : List CacheTag := [⟨.stats, none⟩]

/-- A cached, fresh dashboard-stats read with the given subscriber
count. -/
def dashboardStatsEntry (subs : Nat) : CacheEntry :=
  ⟨"getDashboardStats(undefined)", getDashboardStatsProvidesTags, subs, false⟩

/-! # Theorems -/

theorem JsNum.den_q_pos (a : JsNum) : (0 : ℚ) < (a.den : ℚ) := by
  exact_mod_cast Nat.cast_pos.mpr a.dpos

theorem JsNum.leB_iff (a b : JsNum) : a.leB b = true ↔ a.toRat ≤ b.toRat := by
  rw [JsNum.leB, decide_eq_true_iff, JsNum.toRat, JsNum.toRat,
    div_le_div_iff₀ a.den_q_pos b.den_q_pos]
  exact_mod_cast Iff.rfl

theorem JsNum.ltB_iff (a b : JsNum) : a.ltB b = true ↔ a.toRat < b.toRat := by
  rw [JsNum.ltB, decide_eq_true_iff, JsNum.toRat, JsNum.toRat,
    div_lt_div_iff₀ a.den_q_pos b.den_q_pos]
  exact_mod_cast Iff.rfl

theorem JsNum.toRat_ofInt (n : Int) : (JsNum.ofInt n).toRat = (n : ℚ) := by
  simp [JsNum.ofInt, JsNum.toRat]

theorem JsNum.toRat_mul (a b : JsNum) : (a.mul b).toRat = a.toRat * b.toRat := by
  simp only [JsNum.mul, JsNum.toRat]
  push_cast
  rw [div_mul_div_comm]

theorem JsNum.toRat_sub (a b : JsNum) : (a.sub b).toRat = a.toRat - b.toRat := by
  have ha := a.den_q_pos
  have hb := b.den_q_pos
  simp only [JsNum.sub, JsNum.toRat]
  rw [div_sub_div _ _ ha.ne' hb.ne']
  push_cast
  ring_nf

theorem JsNum.toRat_neg (a : JsNum) : a.neg.toRat = -a.toRat := by
  simp [JsNum.neg, JsNum.toRat, neg_div]

theorem JsNum.isZero_iff (a : JsNum) : a.isZero = true ↔ a.toRat = 0 := by
  have ha := a.den_q_pos
  rw [JsNum.isZero, JsNum.toRat, decide_eq_true_iff, div_eq_zero_iff]
  constructor
  · intro h; left; exact_mod_cast h
  · rintro (h | h)
    · exact_mod_cast h
    · exact absurd h ha.ne'

theorem expiryCutoff_toRat (q : JsNum) :
    (expiryCutoff q).toRat = q.toRat * 1000 - 5000 := by
  rw [expiryCutoff, JsNum.toRat_sub, JsNum.toRat_mul, JsNum.toRat_ofInt,
    JsNum.toRat_ofInt]
  norm_num

theorem decodeJWT_empty : decodeJWT "" = none := rfl

/-! ## Claim C2 — the expiry predicate and the skew-buffered cutoff -/

/-- C2: for every token string whose claim set decodes successfully and
contains an expiry claim (an `exp` member holding a JSON number `q`, in
seconds), `isTokenExpired` is `false` at every wall-clock instant
(`Date.now()` values are nonnegative) strictly before
`q·1000 − 5000` — the claimed expiry minus the 5-second skew buffer —
and `true` at every instant at or after it. -/
theorem isTokenExpired_iff_cutoff (t : String) (p : Json) (q : JsNum)
    (now : JsNum) (hnow : 0 ≤ now.toRat) (hdec : decodeJWT t = some p)
    (hexp : getExpField p = some (.num q)) :
    isTokenExpired (some t) now = false ↔ now.toRat < q.toRat * 1000 - 5000 := by
  have ht : t ≠ "" := by
    intro h
    rw [h, decodeJWT_empty] at hdec
    exact Option.noConfusion hdec
  rw [isTokenExpired]
  simp only [if_neg ht, hdec, hexp]
  have hf : jsFalsy (Json.num q) = q.isZero := rfl
  rw [hf]
  by_cases hz : q.isZero = true
  · rw [if_pos hz]
    have h0 : q.toRat = 0 := (JsNum.isZero_iff q).mp hz
    rw [h0]
    norm_num
    linarith
  · rw [if_neg hz]
    show (expiryCutoff q).leB now = false ↔ _
    rw [← Bool.not_eq_true, JsNum.leB_iff, expiryCutoff_toRat]
    exact not_le

/-- Witness for C2 at the token `x.eyJleHAiOjEwMDB9` (payload
`{"exp":1000}`) and instant `0`. -/
theorem isTokenExpired_iff_cutoff_witness :
    isTokenExpired (some "x.eyJleHAiOjEwMDB9") (.ofInt 0) = false := by
  have h := isTokenExpired_iff_cutoff "x.eyJleHAiOjEwMDB9"
    (Json.obj [("exp", Json.num (.ofInt 1000))]) (.ofInt 1000) (.ofInt 0)
    (by rw [JsNum.toRat_ofInt]; norm_num) rfl rfl
  rw [h, JsNum.toRat_ofInt, JsNum.toRat_ofInt]
  norm_num

/-! ## Claim C3 — fail-safe decoding, and its fail-open exception -/

/-- C3 counterexample: the fail-safe default does not extend to a claim
set whose expiry claim is present but non-numeric.  For the token
`x.eyJleHAiOiJhYmMifQ` (payload `{"exp":"abc"}`), decoding succeeds,
`!payload.exp` passes (a non-empty string is truthy), and
`"abc" * 1000` coerces to `NaN`, so `Date.now() >= NaN - 5000` is
`false`: `isTokenExpired` returns `false` — fail-open — here at
instant `0`, and likewise at every other instant. -/
theorem nonnumeric_exp_fails_open :
    decodeJWT "x.eyJleHAiOiJhYmMifQ"
      = some (Json.obj [("exp", Json.str "abc")]) ∧
    jsToNumber (Json.str "abc") = .nan ∧
    isTokenExpired (some "x.eyJleHAiOiJhYmMifQ") (.ofInt 0) = false :=
  ⟨rfl, rfl, rfl⟩

/-- C3 amended: `decodeJWT` is total — every failure mode of the source
(malformed structure, invalid base64, invalid UTF-8, JSON syntax
error) is caught and returned as the same `null` result, modelled by
`none` — and `isTokenExpired` returns `true` whenever decoding yields
no claim set, or the claim set's `exp` property is absent or falsy
(the source's `!payload || !payload.exp` guard).  The fail-safe
default does not, however, cover a present, truthy expiry claim that
coerces to `NaN`: there the comparison `now >= exp*1000 - 5000` is
`false` and `isTokenExpired` returns `false` (fail-open; see the
counterexample). -/
theorem decode_fail_safe_and_fail_open (t : String) (now : JsNum) :
    (decodeJWT t = none → isTokenExpired (some t) now = true) ∧
    (∀ p, decodeJWT t = some p → getExpField p = none →
      isTokenExpired (some t) now = true) ∧
    (∀ p v, decodeJWT t = some p → getExpField p = some v →
      jsFalsy v = true → isTokenExpired (some t) now = true) ∧
    (∀ p v, decodeJWT t = some p → getExpField p = some v →
      jsFalsy v = false → jsToNumber v = .nan →
      isTokenExpired (some t) now = false) := by
  by_cases ht : t = ""
  · subst ht
    refine ⟨fun _ => rfl, fun p hp _ => ?_, fun p v hp _ _ => ?_,
      fun p v hp _ _ _ => ?_⟩ <;>
      (rw [decodeJWT_empty] at hp; exact Option.noConfusion hp)
  · refine ⟨?_, ?_, ?_, ?_⟩
    · intro hd
      rw [isTokenExpired]
      simp only [if_neg ht, hd]
    · intro p hp hpe
      rw [isTokenExpired]
      simp only [if_neg ht, hp, hpe]
    · intro p v hp hv hf
      rw [isTokenExpired]
      simp only [if_neg ht, hp, hv, hf, if_true]
    · intro p v hp hv hf hn
      rw [isTokenExpired]
      simp only [if_neg ht, hp, hv, hf, hn, Bool.false_eq_true, if_false]

/-- Witness for C3 (amended) at the malformed token `garbage` (no dot
separator), at `x.e30` (payload `{}`, no `exp` property), and at
`x.eyJleHAiOiJhYmMifQ` (payload `{"exp":"abc"}`, the fail-open case),
instant `0`. -/
theorem decode_fail_safe_and_fail_open_witness :
    isTokenExpired (some "garbage") (.ofInt 0) = true ∧
    isTokenExpired (some "x.e30") (.ofInt 0) = true ∧
    isTokenExpired (some "x.eyJleHAiOiJhYmMifQ") (.ofInt 0) = false :=
  ⟨(decode_fail_safe_and_fail_open "garbage" (.ofInt 0)).1 rfl,
   (decode_fail_safe_and_fail_open "x.e30" (.ofInt 0)).2.1
     (Json.obj []) rfl rfl,
   (decode_fail_safe_and_fail_open "x.eyJleHAiOiJhYmMifQ" (.ofInt 0)).2.2.2
     (Json.obj [("exp", Json.str "abc")]) (Json.str "abc") rfl rfl rfl rfl⟩

/-! ## Claim C9 — the structural guard of `decodeJWT` -/

/-- C9 counterexample: the claim says a token in which any of the three
dot-separated parts is missing decodes to `null`, but `.e30` — whose
first part is empty and whose third (signature) part is missing, so
that splitting yields only two parts — decodes to the claim map `{}`.
The guard in the source only requires two parts with a non-empty
second. -/
theorem two_part_token_decodes :
    decodeJWT ".e30" = some (Json.obj []) ∧
    splitOnChar '.' ".e30".data = [[], ['e', '3', '0']] :=
  ⟨rfl, rfl⟩

/-- C9 amended: `decodeJWT` returns `null` when splitting on `.` yields
fewer than two parts or an empty second part (the guard
`parts.length < 2 || !parts[1]`); a token may also decode to `null`
through a downstream base64 / UTF-8 / JSON failure, but a missing
*third* part alone does not force `null`. -/
theorem decodeJWT_guard_none (t : String)
    (h : (splitOnChar '.' t.data).length < 2 ∨
      (splitOnChar '.' t.data)[1]? = some []) :
    decodeJWT t = none := by
  rw [decodeJWT]
  rcases h with h | h
  · rw [List.getElem?_eq_none (by omega)]
  · rw [h]
    simp

/-- Witness for C9 (amended) at the dot-free token `abc`. -/
theorem decodeJWT_guard_none_witness : decodeJWT "abc" = none :=
  decodeJWT_guard_none "abc" (Or.inl (by decide))

/-! ## Claim C4 — 401 responses end the session -/

/-- C4: whatever the endpoint, a response whose error carries HTTP
status 401 makes `baseQueryWithReauth` dispatch `logout`: the store
afterwards reports `isAuthenticated = false` with `null` token, user
and cached expiry, and both durable-storage entries are removed. -/
theorem unauthorized_response_ends_session (e : FetchError) (st : AuthState)
    (sto : Storage) (h401 : e.status = .code 401) :
    (baseQueryWithReauth (some e) st sto).1.isAuthenticated = false ∧
    (baseQueryWithReauth (some e) st sto).1.token = none ∧
    (baseQueryWithReauth (some e) st sto).1.user = none ∧
    (baseQueryWithReauth (some e) st sto).1.tokenExpiry = none ∧
    (baseQueryWithReauth (some e) st sto).2.tokenItem = none ∧
    (baseQueryWithReauth (some e) st sto).2.userItem = none := by
  simp [baseQueryWithReauth, h401, logout]

/-- Witness for C4: a 401 error received while a token and user are
persisted and the store is authenticated. -/
theorem unauthorized_response_ends_session_witness :
    (baseQueryWithReauth (some ⟨.code 401⟩)
      (getInitialAuthState ⟨some "x.eyJleHAiOjEwMDB9", some "{}"⟩ (.ofInt 0))
      ⟨some "x.eyJleHAiOjEwMDB9", some "{}"⟩).1.isAuthenticated = false ∧
    (baseQueryWithReauth (some ⟨.code 401⟩)
      (getInitialAuthState ⟨some "x.eyJleHAiOjEwMDB9", some "{}"⟩ (.ofInt 0))
      ⟨some "x.eyJleHAiOjEwMDB9", some "{}"⟩).2.tokenItem = none :=
  ⟨(unauthorized_response_ends_session ⟨.code 401⟩ _ _ rfl).1,
   (unauthorized_response_ends_session ⟨.code 401⟩ _ _ rfl).2.2.2.2.1⟩

/-! ## Claim C5 — create-payment does not invalidate dashboard stats -/

/-- C5 (code bug): `createPayment` declares `invalidatesTags:
['Payment']` while `getDashboardStats` provides only `['Stats']` — the
two tag sets are disjoint, so by the cache's own invalidation rule a
previously cached dashboard-stats entry survives a successful
create-payment write untouched and still marked fresh, i.e. it is
served from cache rather than refetched.  This contradicts both the
claim and the source's own comment on `getDashboardStats` ("Stats are
automatically invalidated when licenses/payments/activations change via
tag invalidation"); the license and subscription mutations do include
`'Stats'` in their `invalidatesTags`, and `createPayment` does not. -/
theorem createPayment_leaves_dashboardStats_cached :
    applyInvalidation [dashboardStatsEntry 1] createPaymentInvalidatesTags
      = [dashboardStatsEntry 1] ∧
    (dashboardStatsEntry 1).stale = false ∧
    tagsIntersect getDashboardStatsProvidesTags createPaymentInvalidatesTags
      = false :=
  ⟨rfl, rfl, rfl⟩

/-! ## Claim C6 — storage failure during `setCredentials` -/

/-- C6 counterexample: with both `localStorage.setItem` calls failing
(quota exceeded), dispatching `setCredentials` from a logged-out state
throws (the reducer has no `try`/`catch`) and, because a throwing Immer
recipe commits nothing, the in-memory state still has
`isAuthenticated = false` and a `null` token — contradicting the
claim that the failure is swallowed and the state ends up holding the
credentials. -/
theorem setCredentials_storage_failure_not_swallowed :
    (setCredentials (getInitialAuthState ⟨none, none⟩ (.ofInt 0)) ⟨none, none⟩
      false false "x.eyJleHAiOjEwMDB9" (Json.obj [])).threw = true ∧
    (setCredentials (getInitialAuthState ⟨none, none⟩ (.ofInt 0)) ⟨none, none⟩
      false false "x.eyJleHAiOjEwMDB9" (Json.obj [])).state.isAuthenticated
      = false ∧
    (setCredentials (getInitialAuthState ⟨none, none⟩ (.ofInt 0)) ⟨none, none⟩
      false false "x.eyJleHAiOjEwMDB9" (Json.obj [])).state.token = none :=
  ⟨rfl, rfl, rfl⟩

/-- C6 amended: if either durable-storage write performed during
`setCredentials` fails, the exception propagates to the dispatching
caller and the in-memory session state is left unchanged (the Immer
draft is discarded); a storage-write failure is not swallowed. -/
theorem setCredentials_storage_failure_throws (st : AuthState) (sto : Storage)
    (okT okU : Bool) (t : String) (u : Json) (h : okT = false ∨ okU = false) :
    (setCredentials st sto okT okU t u).threw = true ∧
    (setCredentials st sto okT okU t u).state = st := by
  constructor <;>
    (rw [setCredentials]
     split_ifs with h1 h2 h3 <;>
       first
       | rfl
       | (exfalso; rcases h with h | h <;> simp_all))

/-- Witness for C6 (amended): the token-item write fails. -/
theorem setCredentials_storage_failure_throws_witness :
    (setCredentials (getInitialAuthState ⟨none, none⟩ (.ofInt 0)) ⟨none, none⟩
      false true "x.eyJleHAiOjEwMDB9" (Json.obj [])).threw = true ∧
    (setCredentials (getInitialAuthState ⟨none, none⟩ (.ofInt 0)) ⟨none, none⟩
      false true "x.eyJleHAiOjEwMDB9" (Json.obj [])).state
      = getInitialAuthState ⟨none, none⟩ (.ofInt 0) :=
  setCredentials_storage_failure_throws _ _ _ _ _ _ (Or.inl rfl)

/-! ## Claim C7 — initial state reconstruction -/

/-- C7 counterexample: with an expired persisted token (`x.e30`, whose
payload `{}` has no expiry claim, hence expired) and a parsable
persisted user (`{}`), the initial state is not "fully logged-out":
`isAuthenticated` is `false` and the cached expiry is `null`, but the
raw token string and the parsed user are both retained in state rather
than nulled. -/
theorem initial_state_retains_expired_token_and_user :
    isTokenExpired (some "x.e30") (.ofInt 0) = true ∧
    (getInitialAuthState ⟨some "x.e30", some "{}"⟩ (.ofInt 0)).isAuthenticated
      = false ∧
    (getInitialAuthState ⟨some "x.e30", some "{}"⟩ (.ofInt 0)).token
      = some "x.e30" ∧
    (getInitialAuthState ⟨some "x.e30", some "{}"⟩ (.ofInt 0)).user
      = some (Json.obj []) ∧
    (getInitialAuthState ⟨some "x.e30", some "{}"⟩ (.ofInt 0)).tokenExpiry
      = none :=
  ⟨rfl, rfl, rfl, rfl, rfl⟩

/-- C7 amended: at process start, `isAuthenticated` is `true` exactly
when a non-empty, non-expired (per the token codec) token is persisted;
when it is `false` the cached expiry is `null` (though the raw token
string and any parsable persisted user are retained in state); a parse
failure of the persisted user yields a `null` user without failing
initialisation; and any cached expiry is the instant recomputed from
the persisted token and lies strictly in the future at the moment of
initialisation. -/
theorem getInitialAuthState_token (sto : Storage) (now : JsNum) :
    (getInitialAuthState sto now).token = sto.tokenItem := rfl

theorem getInitialAuthState_isAuthenticated (sto : Storage) (now : JsNum) :
    (getInitialAuthState sto now).isAuthenticated =
      match sto.tokenItem with
      | none => false
      | some t => if t = "" then false else ! isTokenExpired (some t) now := rfl

theorem getInitialAuthState_user (sto : Storage) (now : JsNum) :
    (getInitialAuthState sto now).user =
      match sto.userItem with
      | none => none
      | some s =>
        match jsonParse s.data with
        | none => none
        | some j => if j.isNull then none else some j := rfl

theorem getInitialAuthState_tokenExpiry (sto : Storage) (now : JsNum) :
    (getInitialAuthState sto now).tokenExpiry =
      match sto.tokenItem with
      | none => none
      | some t =>
        if t = "" then none
        else if (match sto.tokenItem with
          | none => false
          | some t => if t = "" then false else ! isTokenExpired (some t) now) then
          match getTokenExpirationTime (some t) with
          | some (some ms) => if now.ltB ms then some ms else none
          | _ => none
        else none := rfl

theorem getInitialAuthState_spec (sto : Storage) (now : JsNum) :
    ((getInitialAuthState sto now).isAuthenticated = true ↔
      ∃ t, sto.tokenItem = some t ∧ t ≠ "" ∧
        isTokenExpired (some t) now = false) ∧
    ((getInitialAuthState sto now).isAuthenticated = false →
      (getInitialAuthState sto now).tokenExpiry = none) ∧
    (∀ s, sto.userItem = some s → jsonParse s.data = none →
      (getInitialAuthState sto now).user = none) ∧
    (∀ ms, (getInitialAuthState sto now).tokenExpiry = some ms →
      getTokenExpirationTime sto.tokenItem = some (some ms) ∧
        now.toRat < ms.toRat) := by
  refine ⟨?_, ?_, ?_, ?_⟩
  · rw [getInitialAuthState_isAuthenticated]
    rcases htok : sto.tokenItem with _ | t
    · simp
    · by_cases ht : t = ""
      · subst ht
        simp
      · simp only [if_neg ht]
        constructor
        · intro h
          exact ⟨t, rfl, ht, by simpa using h⟩
        · rintro ⟨t', ht', -, hexp'⟩
          cases ht'
          simp [hexp']
  · intro hauth
    rw [getInitialAuthState_isAuthenticated] at hauth
    rw [getInitialAuthState_tokenExpiry]
    rcases htok : sto.tokenItem with _ | t
    · simp [htok]
    · simp only [htok] at hauth ⊢
      by_cases ht : t = ""
      · simp [ht]
      · simp only [if_neg ht] at hauth ⊢
        simp [hauth]
  · intro s hs hp
    rw [getInitialAuthState_user]
    simp only [hs, hp]
  · intro ms hms
    rw [getInitialAuthState_tokenExpiry] at hms
    rcases htok : sto.tokenItem with _ | t
    · simp [htok] at hms
    · simp only [htok] at hms
      by_cases ht : t = ""
      · rw [if_pos ht] at hms
        exact Option.noConfusion hms
      · rw [if_neg ht] at hms
        by_cases hexp : isTokenExpired (some t) now = true
        · simp only [if_neg ht, hexp] at hms
          simp at hms
        · rw [Bool.not_eq_true] at hexp
          simp only [if_neg ht, hexp, Bool.not_false, if_true] at hms
          rcases hg : getTokenExpirationTime (some t) with _ | g
          · rw [hg] at hms
            exact Option.noConfusion hms
          · rcases g with _ | g
            · rw [hg] at hms
              exact Option.noConfusion hms
            · simp only [hg] at hms
              by_cases hlt : now.ltB g = true
              · rw [if_pos hlt] at hms
                injection hms with hms'
                subst hms'
                exact ⟨rfl, (JsNum.ltB_iff now g).mp hlt⟩
              · rw [if_neg hlt] at hms
                exact Option.noConfusion hms

/-- Witness for C7 (amended) at a storage holding a valid token and an
unparsable user string (a lone opening brace). -/
theorem getInitialAuthState_spec_witness :
    (getInitialAuthState ⟨some "x.eyJleHAiOjEwMDB9", some "\x7b"⟩ (.ofInt 0)).user
      = none ∧
    (getInitialAuthState ⟨some "x.eyJleHAiOjEwMDB9", some "\x7b"⟩
      (.ofInt 0)).isAuthenticated = true :=
  ⟨(getInitialAuthState_spec ⟨some "x.eyJleHAiOjEwMDB9", some "\x7b"⟩
      (.ofInt 0)).2.2.1 "\x7b" rfl rfl,
   ((getInitialAuthState_spec ⟨some "x.eyJleHAiOjEwMDB9", some "\x7b"⟩
      (.ofInt 0)).1).mpr ⟨"x.eyJleHAiOjEwMDB9", rfl, by decide, by decide⟩⟩

/-! ## Claim C8 — the session-store invariant -/

/-- C8 counterexample: dispatching `setCredentials` with a token whose
expiry claim is already past (payload `{"exp":1000}`, expiry instant
1 000 000 ms, dispatched at instant 2 000 000 ms) yields a reachable
state with `isAuthenticated = true` whose cached expiry was in the
past at the moment it was set — `setCredentials` performs no expiry
validation, so the invariant's "expiry was in the future when set"
clause fails. -/
theorem authenticated_with_past_expiry_reachable :
    (runTrace (initSys ⟨none, none⟩ (.ofInt 0))
      [(.setCreds "x.eyJleHAiOjEwMDB9" (Json.obj []) true true,
        .ofInt 2000000)]).auth.isAuthenticated = true ∧
    (runTrace (initSys ⟨none, none⟩ (.ofInt 0))
      [(.setCreds "x.eyJleHAiOjEwMDB9" (Json.obj []) true true,
        .ofInt 2000000)]).auth.tokenExpiry = some (.ofInt 1000000) ∧
    (runTrace (initSys ⟨none, none⟩ (.ofInt 0))
      [(.setCreds "x.eyJleHAiOjEwMDB9" (Json.obj []) true true,
        .ofInt 2000000)]).expirySetAt = some (.ofInt 2000000) ∧
    (JsNum.ofInt 1000000).toRat < (JsNum.ofInt 2000000).toRat := by
  refine ⟨rfl, rfl, rfl, ?_⟩
  rw [JsNum.toRat_ofInt, JsNum.toRat_ofInt]
  norm_num

theorem getInitialAuthState_auth_token (sto : Storage) (now : JsNum)
    (h : (getInitialAuthState sto now).isAuthenticated = true) :
    (getInitialAuthState sto now).token ≠ none := by
  rw [getInitialAuthState_isAuthenticated] at h
  rw [getInitialAuthState_token]
  rcases htok : sto.tokenItem with _ | t
  · rw [htok] at h
    exact Bool.noConfusion h
  · exact fun hn => Option.noConfusion hn

theorem stepEvent_preserves_auth_token (s : SysState) (e : AuthEvent)
    (τ : JsNum)
    (hInv : s.auth.isAuthenticated = true → s.auth.token ≠ none) :
    (stepEvent s e τ).auth.isAuthenticated = true →
      (stepEvent s e τ).auth.token ≠ none := by
  cases e with
  | setCreds t u okT okU =>
    simp only [stepEvent, setCredentials]
    split_ifs <;> (intro h; first | exact hInv h | simp)
  | logoutEvt =>
    intro h
    simp [stepEvent, logout] at h
  | setLoadingEvt b =>
    exact hInv

theorem runTrace_preserves_auth_token (trace : List (AuthEvent × JsNum)) :
    ∀ s : SysState, (s.auth.isAuthenticated = true → s.auth.token ≠ none) →
      (runTrace s trace).auth.isAuthenticated = true →
        (runTrace s trace).auth.token ≠ none := by
  induction trace with
  | nil => exact fun s h => h
  | cons eτ rest ih =>
    intro s h
    exact ih (stepEvent s eτ.1 eτ.2)
      (stepEvent_preserves_auth_token s eτ.1 eτ.2 h)

theorem initial_tokenExpiry_future (sto : Storage) (now : JsNum)
    (ms : JsNum) (hms : (getInitialAuthState sto now).tokenExpiry = some ms) :
    now.toRat < ms.toRat := by
  rw [getInitialAuthState_tokenExpiry] at hms
  rcases htok : sto.tokenItem with _ | t
  · simp [htok] at hms
  · simp only [htok] at hms
    by_cases ht : t = ""
    · rw [if_pos ht] at hms
      exact Option.noConfusion hms
    · rw [if_neg ht] at hms
      by_cases hexp : isTokenExpired (some t) now = true
      · simp only [if_neg ht, hexp] at hms
        simp at hms
      · rw [Bool.not_eq_true] at hexp
        simp only [if_neg ht, hexp, Bool.not_false, if_true] at hms
        rcases hg : getTokenExpirationTime (some t) with _ | g
        · rw [hg] at hms
          exact Option.noConfusion hms
        · rcases g with _ | g
          · rw [hg] at hms
            exact Option.noConfusion hms
          · simp only [hg] at hms
            by_cases hlt : now.ltB g = true
            · rw [if_pos hlt] at hms
              injection hms with hms'
              subst hms'
              exact (JsNum.ltB_iff now g).mp hlt
            · rw [if_neg hlt] at hms
              exact Option.noConfusion hms

/-- C8 amended: in every reachable state of the session store — after
initialisation from arbitrary durable storage followed by any sequence
of `setCredentials`, `logout` and `setLoading` dispatches with
arbitrary arguments — `isAuthenticated = true` implies the token is
non-null, and any expiry cached by the initialisation itself was in the
future at the moment it was computed; an expiry cached by
`setCredentials`, however, may already be in the past at the moment it
is set (see the counterexample), since `setCredentials` marks the
session authenticated without validating the token's expiry. -/
theorem session_store_invariant (sto : Storage) (now0 : JsNum)
    (trace : List (AuthEvent × JsNum)) :
    ((runTrace (initSys sto now0) trace).auth.isAuthenticated = true →
      (runTrace (initSys sto now0) trace).auth.token ≠ none) ∧
    (∀ ms, (getInitialAuthState sto now0).tokenExpiry = some ms →
      now0.toRat < ms.toRat) :=
  ⟨runTrace_preserves_auth_token trace (initSys sto now0)
      (getInitialAuthState_auth_token sto now0),
   initial_tokenExpiry_future sto now0⟩

/-- Witness for C8 (amended): a state reached by logging in with a
valid token, and an initial state whose cached expiry is checked to be
in the future. -/
theorem session_store_invariant_witness :
    (runTrace (initSys ⟨none, none⟩ (.ofInt 0))
      [(.setCreds "x.eyJleHAiOjEwMDB9" (Json.obj []) true true,
        .ofInt 0)]).auth.token ≠ none ∧
    (JsNum.ofInt 0).toRat < (JsNum.ofInt 1000000).toRat :=
  ⟨(session_store_invariant ⟨none, none⟩ (.ofInt 0) _).1 rfl,
   (session_store_invariant ⟨some "x.eyJleHAiOjEwMDB9", none⟩ (.ofInt 0) []).2
     (.ofInt 1000000) rfl⟩

/-! ## Claim C10 — the warning latch -/

theorem checkTokenExpiry_latch (tok : Option String) (texp : Option JsNum)
    (sh : Bool) (τ : JsNum) :
    (checkTokenExpiry tok texp sh τ).warningShown
      = (sh || (checkTokenExpiry tok texp sh τ).warned) ∧
    (sh = true → (checkTokenExpiry tok texp sh τ).warned = false) := by
  rcases tok with _ | t
  · simp [checkTokenExpiry]
  · by_cases ht : t = ""
    · simp [checkTokenExpiry, ht]
    · rcases texp with _ | ms
      · simp only [checkTokenExpiry, if_neg ht]
        rcases hr : getTokenTimeRemaining (some t) τ with _ | r <;>
          simp only [hr] <;> split_ifs <;> simp_all
      · simp only [checkTokenExpiry, if_neg ht]
        split_ifs <;> simp_all

theorem warnCount_latched (tok : Option String) (texp : Option JsNum) :
    ∀ times, warnCount tok texp true times = 0 := by
  intro times
  induction times with
  | nil => rfl
  | cons τ rest ih =>
    have h := checkTokenExpiry_latch tok texp true τ
    simp only [warnCount, h.2 rfl, h.1, Bool.true_or, if_neg]
    simpa using ih

theorem warnCount_unlatched_le_one (tok : Option String) (texp : Option JsNum) :
    ∀ times, warnCount tok texp false times ≤ 1 := by
  intro times
  induction times with
  | nil => exact Nat.zero_le 1
  | cons τ rest ih =>
    have h := checkTokenExpiry_latch tok texp false τ
    by_cases hw : (checkTokenExpiry tok texp false τ).warned = true
    · simp only [warnCount, hw, h.1, Bool.false_or, if_pos]
      rw [warnCount_latched tok texp rest]
    · rw [Bool.not_eq_true] at hw
      simp only [warnCount, hw, h.1, Bool.false_or]
      simpa using ih

/-- C10: while a token is present and its cached expiry is unchanged
(one session), the monitor emits the expiring-soon warning at most
once: the run consisting of the `useEffect` body (which resets the
`warningShownRef` latch — whatever its previous value — and performs
the immediate check) followed by any number of interval checks emits
at most one warning toast, because the check that emits the warning
sets the latch and every later check observes it.  The latch value a
session starts from is `false` regardless of `prevShown`, which is the
reset performed whenever the token changes or is cleared. -/
theorem warning_at_most_once_per_session (tok : Option String)
    (texp : Option JsNum) (prevShown : Bool) (times : List JsNum) :
    monitorSessionWarns tok texp prevShown times ≤ 1 ∧
    monitorSessionWarns tok texp prevShown times
      = monitorSessionWarns tok texp false times := by
  refine ⟨?_, rfl⟩
  rcases tok with _ | t
  · exact Nat.zero_le 1
  · by_cases ht : t = ""
    · simp [monitorSessionWarns, ht]
    · simp only [monitorSessionWarns, if_neg ht]
      exact warnCount_unlatched_le_one (some t) texp times

/-! ## Claim C1 — the pre-request phase of the transport adapter -/

theorem headersGet_delete (hs : Headers) (n n' : String)
    (h : lowerStr n = lowerStr n') :
    headersGet (headersDelete hs n) n' = none := by
  rw [headersGet, Option.map_eq_none']
  rw [List.find?_eq_none]
  intro p hp
  rw [headersDelete, List.mem_filter] at hp
  simp only [decide_eq_true_iff] at hp ⊢
  rw [← h]
  exact hp.2

theorem headersGet_set (hs : Headers) (n v : String) :
    headersGet (headersSet hs n v) n = some v := by
  rw [headersSet, headersGet]
  have key : ∀ (l : Headers), (∀ p ∈ l, lowerStr p.1 ≠ lowerStr n) →
      ((l ++ [(n, v)]).find?
        (fun p => lowerStr p.1 = lowerStr n)).map Prod.snd = some v := by
    intro l hl
    induction l with
    | nil => simp [List.find?]
    | cons p rest ih =>
      have hne : ¬ (lowerStr p.1 = lowerStr n) := hl p (List.mem_cons_self p rest)
      rw [List.cons_append, List.find?_cons_of_neg _ (by simpa using hne)]
      exact ih fun q hq => hl q (List.mem_cons_of_mem p hq)
  apply key
  intro p hp
  rw [headersDelete, List.mem_filter] at hp
  simpa using hp.2

/-- C1 counterexample: with a present token and a cached expiry already
past (expiry instant 1 000 000 ms, request prepared at 2 000 000 ms),
the adapter ends the session (`sessionEnded = true`: `logout` is
dispatched and the redirect fires) but the request is *not* aborted —
`prepareHeaders` has no way to cancel it, so `fetchBaseQuery` sends the
request, merely without a bearer token.  The claim's "the request is
aborted before it is sent" is false of this adapter. -/
theorem expired_request_sent_not_aborted :
    baseQueryPreRequest "getPayments" [] (some "tok") (some (.ofInt 1000000))
      (.ofInt 2000000) = .send [] true ∧
    PreRequest.send ([] : Headers) true ≠ PreRequest.abort :=
  ⟨rfl, fun h => PreRequest.noConfusion h⟩

/-- C1 amended: for every request prepared by the transport adapter
(whose endpoint configuration sets no authorization header of its own):
a bearer token carried by the sent request is always the store's token
and is never known-expired — that is, the "no request is ever sent
carrying a token known to be expired" guarantee holds; on the login
endpoint any existing authorization header is removed and none is
attached; and when the token is known-expired (by the cached expiry
minus the 5-second buffer, or by the codec fallback) the session is
ended but the request is still sent, with its headers unmodified,
rather than aborted. -/
theorem transport_never_sends_expired_token (ep : String) (hs : Headers)
    (tok : Option String) (texp : Option JsNum) (now : JsNum)
    (hauth : headersGet hs "authorization" = none) :
    (∀ h se, baseQueryPreRequest ep hs tok texp now = .send h se →
      ∀ v, headersGet h "authorization" = some v →
        ∃ t, tok = some t ∧ v = "Bearer " ++ t ∧
          knownExpired (some t) texp now = false) ∧
    (endpointIsLogin ep = true →
      ∀ h se, baseQueryPreRequest ep hs tok texp now = .send h se →
        headersGet h "authorization" = none) ∧
    (endpointIsLogin ep = false → ∀ t, tok = some t → t ≠ "" →
      knownExpired (some t) texp now = true →
      baseQueryPreRequest ep hs tok texp now = .send hs true) := by
  by_cases hlogin : endpointIsLogin ep = true
  · have hres : baseQueryPreRequest ep hs tok texp now =
        .send (headersDelete (headersDelete hs "authorization")
          "Authorization") false := by
      simp [baseQueryPreRequest, prepareHeaders, hlogin]
    refine ⟨?_, ?_, ?_⟩
    · intro h se hsend v hv
      rw [hres] at hsend
      cases hsend
      rw [headersGet_delete _ "Authorization" "authorization" (by decide)] at hv
      exact Option.noConfusion hv
    · intro _ h se hsend
      rw [hres] at hsend
      cases hsend
      exact headersGet_delete _ "Authorization" "authorization" (by decide)
    · intro hne
      rw [hlogin] at hne
      exact absurd hne (by simp)
  · rw [Bool.not_eq_true] at hlogin
    rcases tok with _ | t
    · have hres : baseQueryPreRequest ep hs none texp now = .send hs false := by
        simp [baseQueryPreRequest, prepareHeaders, hlogin]
      refine ⟨?_, ?_, ?_⟩
      · intro h se hsend v hv
        rw [hres] at hsend
        cases hsend
        rw [hauth] at hv
        exact Option.noConfusion hv
      · intro hl
        rw [hlogin] at hl
        exact Bool.noConfusion hl
      · intro _ t' htok'
        exact absurd htok' (fun h => Option.noConfusion h)
    · by_cases ht : t = ""
      · have hres : baseQueryPreRequest ep hs (some t) texp now
            = .send hs false := by
          simp [baseQueryPreRequest, prepareHeaders, hlogin, ht]
        refine ⟨?_, ?_, ?_⟩
        · intro h se hsend v hv
          rw [hres] at hsend
          cases hsend
          rw [hauth] at hv
          exact Option.noConfusion hv
        · intro hl
          rw [hlogin] at hl
          exact Bool.noConfusion hl
        · intro _ t' htok' hne'
          injection htok' with ht'
          rw [← ht', ht] at hne'
          exact absurd rfl hne'
      · rcases texp with _ | ms
        · by_cases hexp : isTokenExpired (some t) now = true
          · have hres : baseQueryPreRequest ep hs (some t) none now
                = .send hs true := by
              simp [baseQueryPreRequest, prepareHeaders, hlogin, ht, hexp]
            refine ⟨?_, ?_, ?_⟩
            · intro h se hsend v hv
              rw [hres] at hsend
              cases hsend
              rw [hauth] at hv
              exact Option.noConfusion hv
            · intro hl
              rw [hlogin] at hl
              exact Bool.noConfusion hl
            · intro _ t' htok' _ _
              cases htok'
              exact hres
          · rw [Bool.not_eq_true] at hexp
            have hres : baseQueryPreRequest ep hs (some t) none now
                = .send (headersSet hs "authorization" ("Bearer " ++ t))
                    false := by
              simp [baseQueryPreRequest, prepareHeaders, hlogin, ht, hexp]
            refine ⟨?_, ?_, ?_⟩
            · intro h se hsend v hv
              rw [hres] at hsend
              cases hsend
              rw [headersGet_set] at hv
              injection hv with hv'
              exact ⟨t, rfl, hv'.symm, by simp [knownExpired, hexp]⟩
            · intro hl
              rw [hlogin] at hl
              exact Bool.noConfusion hl
            · intro _ t' htok' _ hknown
              injection htok' with ht'
              rw [← ht'] at hknown
              rw [knownExpired, hexp] at hknown
              exact Bool.noConfusion hknown
        · by_cases hx : (ms.sub (.ofInt 5000)).leB now = true
          · have hres : baseQueryPreRequest ep hs (some t) (some ms) now
                = .send hs true := by
              simp [baseQueryPreRequest, prepareHeaders, hlogin, ht, hx]
            refine ⟨?_, ?_, ?_⟩
            · intro h se hsend v hv
              rw [hres] at hsend
              cases hsend
              rw [hauth] at hv
              exact Option.noConfusion hv
            · intro hl
              rw [hlogin] at hl
              exact Bool.noConfusion hl
            · intro _ t' htok' _ _
              cases htok'
              exact hres
          · rw [Bool.not_eq_true] at hx
            have hres : baseQueryPreRequest ep hs (some t) (some ms) now
                = .send (headersSet hs "authorization" ("Bearer " ++ t))
                    false := by
              simp [baseQueryPreRequest, prepareHeaders, hlogin, ht, hx]
            refine ⟨?_, ?_, ?_⟩
            · intro h se hsend v hv
              rw [hres] at hsend
              cases hsend
              rw [headersGet_set] at hv
              injection hv with hv'
              exact ⟨t, rfl, hv'.symm, by simp [knownExpired, hx]⟩
            · intro hl
              rw [hlogin] at hl
              exact Bool.noConfusion hl
            · intro _ t' htok' _ hknown
              injection htok' with ht'
              rw [← ht'] at hknown
              rw [knownExpired, hx] at hknown
              exact Bool.noConfusion hknown

/-- Witness for C1 (amended): the known-expired branch at a concrete
request — the session is ended and the request goes out with its
original (token-free) headers. -/
theorem transport_never_sends_expired_token_witness :
    baseQueryPreRequest "getPayments" [] (some "tok") (some (.ofInt 1000000))
      (.ofInt 2000000) = .send [] true :=
  (transport_never_sends_expired_token "getPayments" [] (some "tok")
    (some (.ofInt 1000000)) (.ofInt 2000000) rfl).2.2 rfl "tok" rfl
    (by decide) (by decide)

end LicenseFrontend
